import Mathlib

/-!
# Verification of the osp reconciliation & content-synthesis engine

Shallow embedding of the planning (`pkg/planning/plan.go`) and onboarding
(`pkg/onboard`) engines of the osp repository, together with proofs about
the classifier, aggregator, renderer, target resolver and reconciler.

Modelling conventions:
* Go `int` is modelled as `Int`; counters that are provably non-negative use `Nat`.
* Go `float64` arithmetic is modelled by exact rational arithmetic (`Rat`) or
  by `Nat` floor division where the Go code truncates (`int(...)` conversion);
  every claim evaluated concretely below uses inputs at which the Go `float64`
  computation is exact, so the modelling does not change any verdict.
* `strings.EqualFold` is modelled as ASCII case-insensitive equality (all label
  strings appearing in the repository are ASCII).
* Go map iteration order is unspecified (deliberately randomized by the Go
  runtime).  Wherever the source iterates a map (`for k := range m`), the
  embedding takes an explicit enumeration-order argument `order : List String`;
  if it is a permutation of the key set the iteration yields it, otherwise a
  canonical (first-insertion) order is used.  Every permutation is a behaviour
  the Go runtime may exhibit.
* Network transport is out of scope (§6 of the design): fetches are modelled
  as already-delivered values, and the write half of the client is modelled as
  an explicit trace of `WriteOp`s (POST = create, PATCH = update) that the
  reconciler emits.  A fetch failure in Go returns before any write, so it can
  never add elements to the trace.
-/

namespace OSP

/-! ## Basic data model (from `pkg/planning/plan.go` and `pkg/onboard`) -/

/-- A GitHub label (`Label` in plan.go). -/
structure Label where
  name : String
deriving DecidableEq, Repr

/-- A GitHub user (`User` in plan.go). -/
structure User where
  login : String
deriving DecidableEq, Repr

/-- A GitHub issue (`Issue` in plan.go).  `dueOn`-style time values do not
occur here; `htmlURL` is kept because `Update` filters pull requests by URL. -/
structure Issue where
  title : String
  number : Int
  state : String
  labels : List Label
  assignee : Option User
  htmlURL : String
deriving DecidableEq, Repr

/-- A GitHub milestone (`Milestone` in plan.go).  The `*time.Time` due date is
modelled as an already-formatted `Option String` (it only flows into the
template function `formatDate`). -/
structure Milestone where
  title : String
  dueOn : Option String
  description : String
  number : Int
  state : String
  htmlURL : String
deriving DecidableEq, Repr

/-- Planning options (`Options` in plan.go). -/
structure Options where
  planningLabel : String
  categories : List String
  excludePR : Bool
  dryRun : Bool
  autoConfirm : Bool
  priorities : List String
deriving DecidableEq, Repr

/-- Model of `DefaultOptions` from plan.go. -/
def DefaultOptions : Options :=
  { planningLabel := "planning"
    categories := ["bug", "documentation", "enhancement"]
    excludePR := true
    dryRun := false
    autoConfirm := false
    priorities := ["priority/high", "priority/medium", "priority/low"] }

/-- ASCII lower-casing of one character. -/
def asciiToLower (c : Char) : Char :=
  if 'A' ≤ c ∧ c ≤ 'Z' then Char.ofNat (c.toNat + 32) else c

/-- Model of `strings.ToLower`, restricted to ASCII (all strings compared
case-insensitively in the repository are ASCII). -/
def lowerChars (s : String) : List Char :=
  s.data.map asciiToLower

/-- Model of `strings.EqualFold`, restricted to ASCII case folding. -/
def equalFold (a b : String) : Bool :=
  lowerChars a == lowerChars b

/-- Go's byte-wise string comparison (`s <= t`), on the character lists;
for the ASCII strings handled here byte order and character order agree. -/
def charListLe : List Char → List Char → Bool
  | [], _ => true
  | _ :: _, [] => false
  | a :: as, b :: bs => if a = b then charListLe as bs else decide (a < b)

/-- Comparison `a <= b` for Go strings. -/
def strLe (a b : String) : Bool :=
  charListLe a.data b.data

/-- The ordering used to model `sort.Strings`. -/
def strOrder (a b : String) : Prop :=
  strLe a b = true

instance : DecidableRel strOrder := fun _ _ => instDecidableEqBool _ _

/-! ## Label classifier (`getPriorityLevel` in plan.go) -/

/-- Model of `getPriorityLevel` from plan.go: the outer loop ranges over the issue's
labels in the order the tracker returned them, the inner loop over the
configured priority list; the first label that matches any priority decides
the result. -/
def getPriorityLevel (labels : List Label) (priorities : List String) : Nat :=
  match labels with
  | [] => priorities.length
  | l :: rest =>
    match priorities.findIdx? (fun p => equalFold l.name p) with
    | some i => i
    | none => getPriorityLevel rest priorities

/-- The difficulty-determination loop of `SearchOnboardIssues` (part of
`pkg/onboard`): outer loop over the issue's labels, inner loop over the
configured difficulty (or category) labels, breaking at the first label that
matches; returns the matched taxonomy entry, or `""` when nothing matches. -/
def determineTaxonomyLabel (labels : List String) (taxonomy : List String) : String :=
  match labels with
  | [] => ""
  | l :: rest =>
    match taxonomy.find? (fun d => equalFold l d) with
    | some d => d
    | none => determineTaxonomyLabel rest taxonomy

/-! ## Progress bars -/

/-- Model of `strings.Repeat` for a single character. -/
def repChar (c : Char) (n : Nat) : String :=
  String.mk (List.replicate n c)

/-- Model of `generateProgressBar` from plan.go.  The Go `int(float64(c)/float64(t)*k)`
truncations are modelled as `Nat` floor division; at the inputs evaluated in
the theorems below the `float64` computation is exact. -/
def generateProgressBar (completed total length : Nat) : String :=
  if total = 0 then
    repChar '░' length ++ " 0%"
  else
    let progress := completed * length / total
    let percentage := completed * 100 / total
    repChar '█' progress ++ repChar '░' (length - progress) ++ " " ++ toString percentage ++ "%"

/-- Rounding of `num / den` to the nearest integer with ties to even, used to
model Go's `%.1f` formatting (`fmt` rounds the decimal representation of the
double to nearest, ties to even; at the inputs evaluated below the double is
exact). -/
def roundHalfEven (num den : Nat) : Nat :=
  let q := num / den
  let r := num % den
  if 2 * r > den then q + 1
  else if 2 * r < den then q
  else if q % 2 = 0 then q else q + 1

/-- Go `fmt.Sprintf("%.1f", (c/t)*100)`: one decimal digit. -/
def formatPercent1 (completed total : Nat) : String :=
  let n := roundHalfEven (completed * 1000) total
  toString (n / 10) ++ "." ++ toString (n % 10)

/-- Model of `generateProgressBar` from `pkg/onboard` (fixed width 20, minimum-fill
bump, clamp at the width, `%.1f` percentage; when `total = 0` the bar is
returned bare, with no percentage suffix). -/
def onboardProgressBar (completed total : Nat) : String :=
  if total = 0 then
    repChar '░' 20
  else
    let fw0 := completed * 20 / total
    let fw1 := if completed > 0 ∧ fw0 = 0 then 1 else fw0
    let fw := if fw1 > 20 then 20 else fw1
    repChar '█' fw ++ repChar '░' (20 - fw) ++ " " ++ formatPercent1 completed total ++ "%"

/-! ## Confirmation prompts -/

/-- ASCII whitespace, the relevant subset of the characters
`strings.TrimSpace` removes. -/
def isSpaceChar (c : Char) : Bool :=
  c = ' ' ∨ c = '\t' ∨ c = '\n' ∨ c = '\x0b' ∨ c = '\x0c' ∨ c = '\r'

/-- Model of `strings.TrimSpace` on the character list. -/
def trimChars (l : List Char) : List Char :=
  ((l.dropWhile isSpaceChar).reverse.dropWhile isSpaceChar).reverse

/-- Model of `strings.ToLower(strings.TrimSpace(s))` as in both prompt loops. -/
def normalizeResponse (s : String) : String :=
  String.mk ((trimChars s.data).map asciiToLower)

/-- Model of `askForConfirmation` from plan.go, as a function of the stream of input
lines.  The loop skips anything that is not (case-insensitively) y/yes/n/no —
including the empty string — and reprompts; a read error (modelled as the
stream running out) returns `false`. -/
def planningAskForConfirmation (inputs : List String) : Bool :=
  match inputs with
  | [] => false
  | line :: rest =>
    let r := normalizeResponse line
    if r = "y" ∨ r = "yes" then true
    else if r = "n" ∨ r = "no" then false
    else planningAskForConfirmation rest

/-- Model of `AskForConfirmation` from `pkg/util/prompt`: empty input declines
immediately, y/yes confirms, n/no declines, anything else reprompts; a read
error (stream exhausted) is returned as an error. -/
def AskForConfirmation (inputs : List String) : Except Unit Bool :=
  match inputs with
  | [] => .error ()
  | line :: rest =>
    let r := normalizeResponse line
    if r = "" then .ok false
    else if r = "y" ∨ r = "yes" then .ok true
    else if r = "n" ∨ r = "no" then .ok false
    else AskForConfirmation rest

/-! ## Go map iteration -/

/-- Decidable check that `l1` is a permutation of `l2`. -/
def permCheck : List String → List String → Bool
  | [], [] => true
  | [], _ :: _ => false
  | x :: xs, ys => if ys.contains x then permCheck xs (ys.erase x) else false

/-- Go `for k := range m` iteration: the runtime may yield the keys in any
order.  `order` is the order the runtime chose; if it is not a permutation of
the key list the canonical first-insertion order is used instead. -/
def mapIterKeys (order keys : List String) : List String :=
  if permCheck order keys then order else keys

/-! ## Statistics aggregator -/

/-- Insert a key into the insertion-ordered key list of a Go `map` if absent. -/
def insertKey (acc : List String) (k : String) : List String :=
  if acc.contains k then acc else acc ++ [k]

/-- Key list, in first-insertion order, of a Go `map[string]…` populated by a
single loop that conditionally inserts one key per element. -/
def collectKeys (f : α → Option String) (l : List α) : List String :=
  l.foldl
    (fun acc i =>
      match f i with
      | some k => insertKey acc k
      | none => acc)
    []

/-- The contributor key contributed by one issue in `prepareTemplateData`
(plan.go): the assignee's login, for closed issues that have an assignee. -/
def planContributorKey (i : Issue) : Option String :=
  if i.state == "closed" then
    match i.assignee with
    | some u => some u.login
    | none => none
  else none

/-- Key list (first-insertion order) of the contributors map of
`prepareTemplateData` (plan.go): logins of assignees of closed issues. -/
def planContributorKeys (issues : List Issue) : List String :=
  collectKeys planContributorKey issues

/-- The `contributorsList` of `prepareTemplateData` (plan.go): the contributors
map is iterated with `for contributor := range contributors` and the result is
**not** sorted, so the order is whatever the runtime yields. -/
def planContributors (order : List String) (issues : List Issue) : List String :=
  mapIterKeys order (planContributorKeys issues)

/-- Model of `MilestoneStats` from plan.go.  `Progress` (a Go `float64`) is modelled as
an exact rational. -/
structure MilestoneStats where
  totalIssues : Nat
  completedIssues : Nat
  progress : Rat
  contributors : List String
deriving DecidableEq, Repr

/-- The statistics part of `prepareTemplateData` (plan.go): total, closed
count, progress percentage guarded against division by zero, and the (order
unspecified) contributors list. -/
def planningStats (order : List String) (issues : List Issue) : MilestoneStats :=
  let totalIssues := issues.length
  let completedIssues := (issues.filter (fun i => i.state == "closed")).length
  let progress : Rat :=
    if totalIssues > 0 then (completedIssues : Rat) / (totalIssues : Rat) * 100 else 0
  { totalIssues := totalIssues
    completedIssues := completedIssues
    progress := progress
    contributors := planContributors order issues }

/-! ## Onboarding data model and aggregator (`pkg/onboard`) -/

/-- Model of `OnboardIssue` from `pkg/onboard`. -/
structure OnboardIssue where
  difficulty : String
  status : String
  assignee : String
  number : Int
  category : String
deriving DecidableEq, Repr

/-- Onboarding `Options` from `pkg/onboard`. -/
structure OnboardOptions where
  onboardLabels : List String
  difficultyLabels : List String
  categoryLabels : List String
  targetLabel : String
  targetTitle : String
  dryRun : Bool
  autoConfirm : Bool
deriving DecidableEq, Repr

/-- Model of `DefaultOptions` from `pkg/onboard`. -/
def onboardDefaultOptions : OnboardOptions :=
  { onboardLabels := ["help wanted", "good first issue"]
    difficultyLabels := ["good first issue", "help wanted"]
    categoryLabels := ["bug", "enhancement", "documentation"]
    targetLabel := "onboarding"
    targetTitle := "Onboarding: Getting Started with Contributing"
    dryRun := false
    autoConfirm := false }

/-- The issue-number deduplication of `GenerateContent` (`uniqueIssueMap`):
keep the first occurrence of each issue number. -/
def dedupByNumberAux (seen : List Int) : List OnboardIssue → List OnboardIssue
  | [] => []
  | i :: rest =>
    if seen.contains i.number then dedupByNumberAux seen rest
    else i :: dedupByNumberAux (i.number :: seen) rest

/-- The `uniqueIssues` list of `GenerateContent`. -/
def dedupByNumber (issues : List OnboardIssue) : List OnboardIssue :=
  dedupByNumberAux [] issues

/-- Model of `Stats` from `pkg/onboard` (contributors handled separately, as in the
source where they are filled in from a map after the counting loop). -/
structure OnboardStats where
  totalIssues : Nat
  completedIssues : Nat
  inProgressIssues : Nat
  unassignedIssues : Nat
deriving DecidableEq, Repr

/-- One step of the counting `switch` in `GenerateContent`. -/
def onboardStatsStep (s : OnboardStats) (i : OnboardIssue) : OnboardStats :=
  if i.status == "closed" then { s with completedIssues := s.completedIssues + 1 }
  else if i.assignee ≠ "" then { s with inProgressIssues := s.inProgressIssues + 1 }
  else { s with unassignedIssues := s.unassignedIssues + 1 }

/-- The statistics loop of `GenerateContent` over the deduplicated issues. -/
def onboardStats (issues : List OnboardIssue) : OnboardStats :=
  let u := dedupByNumber issues
  u.foldl onboardStatsStep
    { totalIssues := u.length, completedIssues := 0, inProgressIssues := 0, unassignedIssues := 0 }

/-- The contributor key contributed by one issue in `GenerateContent`
(`pkg/onboard`): the assignee, for closed issues whose assignee is set. -/
def onboardContributorKey (i : OnboardIssue) : Option String :=
  if i.status == "closed" && !(i.assignee == "") then some i.assignee else none

/-- Key list (first-insertion order) of the contributors map of
`GenerateContent`: assignees of closed issues among the deduplicated list. -/
def onboardContributorKeys (issues : List OnboardIssue) : List String :=
  collectKeys onboardContributorKey (dedupByNumber issues)

/-- The `stats.Contributors` field of `GenerateContent`: the contributors map is
iterated (order unspecified) and then `sort.Strings` sorts the result. -/
def onboardContributors (order : List String) (issues : List OnboardIssue) : List String :=
  (mapIterKeys order (onboardContributorKeys issues)).insertionSort strOrder

/-! ## Grouping -/

/-- The `categorized` flag of the grouping loop in `prepareTemplateData`
(plan.go): some label of the issue matches (case-insensitively) some
configured category. -/
def planCategorized (i : Issue) (categories : List String) : Bool :=
  categories.any (fun c => i.labels.any (fun l => equalFold l.name c))

/-- The `uncategorizedIssues` list of `prepareTemplateData` (plan.go). -/
def uncategorizedIssues (issues : List Issue) (categories : List String) : List Issue :=
  issues.filter (fun i => !planCategorized i categories)

/-- The category bucket `issuesByCategory[c]` built by `prepareTemplateData`
(plan.go).  The loop nest (issues × categories × labels) has **no** `break`,
so for each issue one append happens per occurrence of `c` in the category
list and per label of the issue matching `c`. -/
def planBucket (issues : List Issue) (categories : List String) (c : String) : List Issue :=
  issues.flatMap (fun i =>
    List.replicate
      ((categories.filter (fun x => x == c)).length *
        (i.labels.filter (fun l => equalFold l.name c)).length)
      i)

/-- The difficulty key under which `GenerateContent` (`pkg/onboard`) files an
issue: its `Difficulty` field if non-empty and present (by exact equality) in
the configured difficulty labels, else `""`. -/
def onboardDifficultyKey (opts : OnboardOptions) (i : OnboardIssue) : String :=
  if i.difficulty ≠ "" ∧ opts.difficultyLabels.contains i.difficulty then i.difficulty else ""

/-- The category key under which `GenerateContent` files an issue. -/
def onboardCategoryKey (opts : OnboardOptions) (i : OnboardIssue) : String :=
  if i.category ≠ "" ∧ opts.categoryLabels.contains i.category then i.category else ""

/-- The bucket `issuesByDiffCategory[d][c]` of `GenerateContent`, before
sorting: the deduplicated issues whose keys are exactly `(d, c)`, in order. -/
def onboardBucket (issues : List OnboardIssue) (opts : OnboardOptions) (d c : String) :
    List OnboardIssue :=
  (dedupByNumber issues).filter
    (fun i => onboardDifficultyKey opts i == d && onboardCategoryKey opts i == c)

/-- Sorted bucket, as handed to the template: open before closed, then by
ascending number.  (Go's `sort.Slice` is unstable; ties — equal status and
number — are modelled by the stable insertion sort.) -/
def onboardSortedBucket (issues : List OnboardIssue) (opts : OnboardOptions) (d c : String) :
    List OnboardIssue :=
  (onboardBucket issues opts d c).insertionSort
    (fun a b => (a.status == b.status && a.number ≤ b.number) || (a.status == "open" && b.status ≠ "open"))

/-! ## Target resolver -/

/-- One pass of the planning-resolver loop in `Update` (plan.go): state is
`(planningIssue, minIssueNumber)`, initially `(none, math.MaxInt32)`. -/
def resolveLoop (t : String) : List Issue → Option Issue × Int → Option Issue × Int
  | [], st => st
  | i :: rest, (acc, m) =>
    resolveLoop t rest
      (if i.title == t then
        (if acc.isNone || decide (i.number < m) then (some i, i.number) else (acc, m))
      else (acc, m))

/-- The planning target resolver of `Update` (plan.go): among the issues
carrying the planning label, the lowest-numbered one whose title equals the
expected planning title. -/
def findPlanningIssue (existing : List Issue) (t : String) : Option Issue :=
  (resolveLoop t existing (none, 2147483647)).1

/-- The anonymous `{Title, Number}` struct of the onboarding `Update`. -/
structure TitledIssue where
  title : String
  number : Int
deriving DecidableEq, Repr

/-- The min-selection loop of the onboarding `Update`: starting from the first
candidate, keep the strictly smaller number. -/
def minLoop (acc : TitledIssue) : List TitledIssue → TitledIssue
  | [] => acc
  | x :: rest => minLoop (if x.number < acc.number then x else acc) rest

/-- The onboarding target resolver of `Update` (`pkg/onboard`): the
lowest-numbered issue carrying the target label — the title is never
consulted. -/
def findOnboardingIssue : List TitledIssue → Option TitledIssue
  | [] => none
  | x :: rest => some (minLoop x rest)

/-! ## Template data and renderers -/

/-- Model of `TemplateData` from plan.go.  The Go `map[string][]Issue` is modelled as a
bucket function (the template only reads it at the configured categories). -/
structure TemplateData where
  milestone : Milestone
  stats : MilestoneStats
  categories : List String
  issues : String → List Issue
  uncategorizedIssues : List Issue
  highPriorityIssues : List Issue
  progressBar : String
  priorities : List String

/-- The in-category sort of `prepareTemplateData` (plan.go): by priority
level, then by ascending issue number.  (Go's `sort.Slice` is unstable; ties
are modelled by the stable insertion sort.) -/
def sortByPriority (priorities : List String) (l : List Issue) : List Issue :=
  l.insertionSort (fun a b =>
    let pa := getPriorityLevel a.labels priorities
    let pb := getPriorityLevel b.labels priorities
    pa < pb || (pa == pb && a.number ≤ b.number))

/-- The `highPriorityIssues` list of `prepareTemplateData` (plan.go): only when at
least two priority levels are configured, the issues in the top two levels,
sorted by level then number. -/
def highPriorityIssues (issues : List Issue) (priorities : List String) : List Issue :=
  if priorities.length ≥ 2 then
    sortByPriority priorities
      (issues.filter (fun i => getPriorityLevel i.labels priorities < 2))
  else []

/-- Model of `prepareTemplateData` from plan.go.  `order` is the runtime's iteration
order over the contributors map (see `mapIterKeys`). -/
def prepareTemplateData (milestone : Milestone) (issues : List Issue) (opts : Options)
    (order : List String) : TemplateData :=
  let stats := planningStats order issues
  { milestone := milestone
    stats := stats
    categories := opts.categories
    issues := fun c => sortByPriority opts.priorities (planBucket issues opts.categories c)
    uncategorizedIssues := uncategorizedIssues issues opts.categories
    highPriorityIssues := highPriorityIssues issues opts.priorities
    progressBar := generateProgressBar stats.completedIssues stats.totalIssues 20
    priorities := opts.priorities }

/-- One issue line of the planning template (`- [x] !!! #1 (@user1) \x60bug\x60 …`). -/
def renderIssueLine (priorities : List String) (i : Issue) : String :=
  let checkbox := if i.state == "closed" then "- [x] " else "- [ ] "
  let level := getPriorityLevel i.labels priorities
  let mark := if level ≥ priorities.length then "" else repChar '!' (priorities.length - level) ++ " "
  let assignee := match i.assignee with
    | some u => " (@" ++ u.login ++ ")"
    | none => ""
  let labels := String.join (i.labels.map (fun l => " \x60" ++ l.name ++ "\x60"))
  checkbox ++ mark ++ "#" ++ toString i.number ++ assignee ++ labels ++ "\n"

/-- One category section of the planning template. -/
def renderCategorySection (priorities : List String) (name : String) (issues : List Issue) :
    String :=
  "### " ++ name ++ " (" ++ toString issues.length ++ ")\n" ++
    String.join (issues.map (renderIssueLine priorities))

/-- Modelled from the spec: the template file `templates/planning.gotmpl` is
not under `src/`; following §4.3 (fixed section order: overview, description,
high-priority subsection, per-category breakdown with "Uncategorized" last,
contributors, footer with deep links and timestamp) and the expected output
lines of the planning render test.  `now` is the pre-formatted timestamp the
caller fixes (`generatePlanningContentWithTime`). -/
def generatePlanningContentWithTime (d : TemplateData) (now : String) : String :=
  let overview :=
    "## Overview\n" ++
    "- Progress: " ++ d.progressBar ++ "\n" ++
    "- Total Issues: " ++ toString d.stats.totalIssues ++ "\n" ++
    "  - ✅ Completed: " ++ toString d.stats.completedIssues ++ "\n" ++
    "  - 🚧 In Progress: " ++ toString (d.stats.totalIssues - d.stats.completedIssues) ++ "\n" ++
    "- Due Date: " ++ (match d.milestone.dueOn with
      | some s => s
      | none => "No due date") ++ "\n" ++
    "- Data comes from [Milestone #" ++ toString d.milestone.number ++ "](" ++
      d.milestone.htmlURL ++ ")\n"
  let description := "## Description\n" ++ d.milestone.description ++ "\n"
  let highPriority :=
    if d.highPriorityIssues.isEmpty then ""
    else "## High Priority Issues\n" ++
      String.join (d.highPriorityIssues.map (renderIssueLine d.priorities))
  let categorySections :=
    "## Tasks by Category\n" ++
    String.join (d.categories.map (fun c => renderCategorySection d.priorities c (d.issues c))) ++
    renderCategorySection d.priorities "Uncategorized" d.uncategorizedIssues
  let contributors :=
    "## Contributors\n" ++
    "Thanks to all our contributors for their efforts on completed issues:\n" ++
    String.join (d.stats.contributors.map (fun u => "- @" ++ u ++ "\n"))
  let footer :=
    "## Links\n---\n> 🤖 Auto-generated by [OSP](https://github.com/elliotxx/osp). DO NOT EDIT.\n" ++
    "> Last Updated: " ++ now ++ "\n"
  overview ++ description ++ highPriority ++ categorySections ++ contributors ++ footer

/-- Modelled from the spec: the template file `templates/onboard.gotmpl` is
not under `src/`; following §4.3 and the expected output lines of the
onboarding content test (overview with progress bar and the three buckets,
description, contributors, issue list grouped by difficulty then category,
with the unspecified keys last). -/
def onboardGenerateContent (issues : List OnboardIssue) (repoName : String)
    (opts : OnboardOptions) (order : List String) (now : String) : String :=
  let stats := onboardStats issues
  let contributors := onboardContributors order issues
  let issueLine := fun (i : OnboardIssue) =>
    (if i.status == "closed" then
      "- [x] #" ++ toString i.number ++
        (if i.assignee ≠ "" then " **[@" ++ i.assignee ++ " did it! Cheers! 🍻]**" else "")
    else
      "- [ ] #" ++ toString i.number ++
        (if i.assignee ≠ "" then " (@" ++ i.assignee ++ ")" else "")) ++ "\n"
  let categorySection := fun (d c : String) =>
    let bucket := onboardSortedBucket issues opts d c
    if bucket.isEmpty then ""
    else "#### Category: " ++ (if c = "" then "Unspecified" else c) ++ " (" ++
      toString bucket.length ++ ")\n" ++ String.join (bucket.map issueLine)
  let difficultySection := fun (d : String) =>
    "### Difficulty: " ++ (if d = "" then "Unspecified" else d) ++ "\n" ++
      String.join ((opts.categoryLabels ++ [""]).map (categorySection d))
  "# Onboarding: " ++ repoName ++ "\n" ++
  "## Overview\n" ++
  "- Progress: " ++ onboardProgressBar stats.completedIssues stats.totalIssues ++ "\n" ++
  "- Total Issues: " ++ toString stats.totalIssues ++ "\n" ++
  "  - ✅ Completed: " ++ toString stats.completedIssues ++ "\n" ++
  "  - 🚧 In Progress: " ++ toString stats.inProgressIssues ++ "\n" ++
  "  - 📋 Unassigned: " ++ toString stats.unassignedIssues ++ "\n" ++
  "## Contributors (" ++ toString contributors.length ++ ")\n" ++
  String.join (contributors.map (fun u => "@" ++ u ++ " ")) ++ "\n" ++
  "## Issue List (" ++ toString stats.totalIssues ++ ")\n" ++
  String.join ((opts.difficultyLabels ++ [""]).map difficultySection) ++
  "> Last Updated: " ++ now ++ "\n"

/-! ## Reconcilers (`Update`) -/

/-- A write issued through the REST client: `post` is issue creation,
`patch` is issue update. -/
inductive WriteOp where
  | post (path : String) (title : String) (body : String) (labels : List String)
  | patch (path : String) (title : String) (body : String)

/-- Discriminator: `true` for a PATCH (update), `false` for a POST (create). -/
def WriteOp.isPatch : WriteOp → Bool
  | .post _ _ _ _ => false
  | .patch _ _ _ => true

/-- The request path of a write. -/
def WriteOp.path : WriteOp → String
  | .post p _ _ _ => p
  | .patch p _ _ => p

/-- Substring test on character lists. -/
def startsWithL : List Char → List Char → Bool
  | [], _ => true
  | _ :: _, [] => false
  | a :: as, b :: bs => a == b && startsWithL as bs

/-- Model of `strings.Contains`, on the underlying character lists. -/
def containsSub (sub : String) (s : String) : Bool :=
  go sub.data s.data
where
  go (sub : List Char) : List Char → Bool
    | [] => startsWithL sub []
    | l@(_ :: rest) => startsWithL sub l || go sub rest

/-- Model of `Update` from plan.go, from the point where the remote data has been
fetched (milestone, the milestone's issues, and the issues carrying the
planning label).  Transport is modelled by the already-delivered lists; a Go
fetch error returns before this logic runs and writes nothing.  The result is
`(returned nil, trace of writes)`; `inputs` feeds the interactive
confirmation, `order` the contributors map iteration, `now` the render
timestamp. -/
def planningUpdate (owner repo : String) (milestone : Milestone)
    (milestoneIssues existingIssues : List Issue) (opts : Options)
    (order : List String) (now : String) (inputs : List String) :
    Bool × List WriteOp :=
  let issues :=
    if opts.excludePR then
      milestoneIssues.filter (fun i => !containsSub "/pull/" i.htmlURL)
    else milestoneIssues
  let data := prepareTemplateData milestone issues opts order
  let content := generatePlanningContentWithTime data now
  let planningTitle := "Planning: " ++ milestone.title
  let planningIssue := findPlanningIssue existingIssues planningTitle
  if !opts.dryRun then
    let proceed := if !opts.autoConfirm then planningAskForConfirmation inputs else true
    if !proceed then (true, [])
    else
      match planningIssue with
      | none =>
        (true, [WriteOp.post ("repos/" ++ owner ++ "/" ++ repo ++ "/issues")
          planningTitle content [opts.planningLabel]])
      | some pi =>
        (true, [WriteOp.patch
          ("repos/" ++ owner ++ "/" ++ repo ++ "/issues/" ++ toString pi.number)
          planningTitle content])
  else (true, [])

/-- Model of `Update` from `pkg/onboard`, from the point where the onboard issues and
the issues carrying the target label have been fetched.  Result is
`(returned nil, trace of writes)`; a confirmation read error makes the first
component `false` (an error return), still with no writes. -/
def onboardUpdate (repoName : String) (issues : List OnboardIssue)
    (existing : List TitledIssue) (opts : OnboardOptions)
    (order : List String) (now : String) (inputs : List String) :
    Bool × List WriteOp :=
  let content := onboardGenerateContent issues repoName opts order now
  let onboardingIssue := findOnboardingIssue existing
  if !opts.dryRun then
    let proceed : Except Unit Bool :=
      if !opts.autoConfirm then AskForConfirmation inputs else .ok true
    match proceed with
    | .error _ => (false, [])
    | .ok false => (true, [])
    | .ok true =>
      match onboardingIssue with
      | none =>
        (true, [WriteOp.post ("repos/" ++ repoName ++ "/issues")
          opts.targetTitle content [opts.targetLabel]])
      | some t =>
        (true, [WriteOp.patch ("repos/" ++ repoName ++ "/issues/" ++ toString t.number)
          opts.targetTitle content])
  else (true, [])

/-! ## Concrete data used by witnesses and counterexamples -/

/-- A milestone fixture. -/
def testMilestone : Milestone :=
  { title := "v1.0.0", dueOn := some "February 28, 2025", description := "First stable release"
    number := 1, state := "open", htmlURL := "https://github.com/elliotxx/osp/milestone/1" }

/-- A duplicate planning tracking issue titled for milestone v1.0.0. -/
def dupIssue (n : Int) : Issue :=
  { title := "Planning: v1.0.0", number := n, state := "open", labels := [], assignee := none
    htmlURL := "" }

/-- An issue carrying two different category labels. -/
def multiIssue : Issue :=
  { title := "Multi", number := 1, state := "open"
    labels := [{ name := "bug" }, { name := "enhancement" }], assignee := none, htmlURL := "" }

/-- A closed issue assigned to `b`. -/
def closedIssueB : Issue :=
  { title := "I1", number := 1, state := "closed", labels := [], assignee := some { login := "b" }
    htmlURL := "" }

/-- A closed issue assigned to `a`. -/
def closedIssueA : Issue :=
  { title := "I2", number := 2, state := "closed", labels := [], assignee := some { login := "a" }
    htmlURL := "" }

/-- A closed onboarding issue fixture. -/
def testOnboardIssue : OnboardIssue :=
  { difficulty := "good first issue", status := "closed", assignee := "user1", number := 1
    category := "bug" }

/-- Template-data fixture mirroring the planning render test. -/
def testTemplateData : TemplateData :=
  prepareTemplateData testMilestone
    [{ title := "Critical Bug", number := 1, state := "closed"
       labels := [{ name := "bug" }, { name := "priority/high" }]
       assignee := some { login := "user1" }, htmlURL := "" },
     { title := "Question", number := 3, state := "open"
       labels := [{ name := "question" }, { name := "priority/low" }]
       assignee := none, htmlURL := "" }]
    DefaultOptions ["user1"]

/-! ## Theorems -/

/-- C8 counterexample: the onboarding progress-bar function over
`(completed, total)` with the fixed 20-cell width renders 0 of 0 as the bare
empty bar — no `"0%"` (indeed no percent sign at all) is appended, so the
claim is false at the concrete input `(0, 0)`. -/
theorem C8_counterexample :
    onboardProgressBar 0 0 = repChar '░' 20 ∧
    (onboardProgressBar 0 0).data.count '%' = 0 ∧
    onboardProgressBar 0 0 ≠ repChar '░' 20 ++ " 0%" := by
  refine ⟨rfl, rfl, ?_⟩
  decide

/-- C8 (amended): the planning `generateProgressBar` at width 20 renders 5 of
10 as a half-filled bar with suffix `" 50%"` and 0 of 0 as a fully empty bar
with `" 0%"`; the onboarding `generateProgressBar` renders 5 of 10 with
suffix `" 50.0%"` and 0 of 0 as the bare empty bar with no percentage. -/
theorem C8_progress_bars :
    generateProgressBar 5 10 20 = repChar '█' 10 ++ repChar '░' 10 ++ " 50%" ∧
    generateProgressBar 0 0 20 = repChar '░' 20 ++ " 0%" ∧
    onboardProgressBar 5 10 = repChar '█' 10 ++ repChar '░' 10 ++ " 50.0%" ∧
    onboardProgressBar 0 0 = repChar '░' 20 := by
  refine ⟨?_, rfl, ?_, rfl⟩ <;> decide

/-- C3: evaluating the classifier at the failing input.  With the default
priority taxonomy, an issue labelled `[priority/low, priority/high]` is
classified at rank 2 (the rank of its *first* label in tracker order), not at
the smallest matching taxonomy index 0 that the claim (and the function's own
doc comment, "the index of the highest priority label found") requires; the
permuted label list yields rank 0, so the result is not stable under label
permutations.  The onboarding difficulty scan has the same label-order
dependence. -/
theorem C3_label_order_decides :
    getPriorityLevel [{ name := "priority/low" }, { name := "priority/high" }]
      DefaultOptions.priorities = 2 ∧
    getPriorityLevel [{ name := "priority/high" }, { name := "priority/low" }]
      DefaultOptions.priorities = 0 ∧
    determineTaxonomyLabel ["help wanted", "good first issue"]
      onboardDefaultOptions.difficultyLabels = "help wanted" ∧
    determineTaxonomyLabel ["good first issue", "help wanted"]
      onboardDefaultOptions.difficultyLabels = "good first issue" := by
  refine ⟨?_, ?_, ?_, ?_⟩ <;> decide

/-- The function `repChar` produces a string of the requested length. -/
theorem repChar_length (c : Char) (n : Nat) : (repChar c n).length = n := by
  simp [repChar, String.length]

/-- C10: for every `completed > 0` and `total > 0`, the onboarding
`generateProgressBar` output is a bar of exactly 20 glyph cells followed by
the percentage suffix, with at least one filled glyph (the minimum-fill bump
applies even when `completed/total × 20` truncates to zero) and at most 20
filled glyphs (the clamp applies even when `completed > total`). -/
theorem C10_onboard_bar_minfill (completed total : Nat)
    (hc : 0 < completed) (ht : 0 < total) :
    ∃ fw : Nat, 1 ≤ fw ∧ fw ≤ 20 ∧
      onboardProgressBar completed total =
        repChar '█' fw ++ repChar '░' (20 - fw) ++ " " ++ formatPercent1 completed total ++ "%" ∧
      (repChar '█' fw ++ repChar '░' (20 - fw)).length = 20 := by
  have htz : ¬ total = 0 := by omega
  set fw0 := completed * 20 / total with hfw0
  set fw1 := if completed > 0 ∧ fw0 = 0 then 1 else fw0 with hfw1
  set fw := if fw1 > 20 then 20 else fw1 with hfw
  have h1 : 1 ≤ fw1 := by
    rw [hfw1]
    split
    · omega
    · rename_i h
      exact Nat.one_le_iff_ne_zero.mpr (fun h0 => h ⟨hc, h0⟩)
  have h2 : 1 ≤ fw ∧ fw ≤ 20 := by
    rw [hfw]
    split <;> omega
  refine ⟨fw, h2.1, h2.2, ?_, ?_⟩
  · rw [onboardProgressBar, if_neg htz]
  · rw [String.length_append, repChar_length, repChar_length]
    omega

/-- C10 witness at `(completed, total) = (1, 30)`, where the untruncated fill
`1/30 × 20` floors to zero and the minimum-fill bump produces one glyph. -/
theorem C10_witness :
    ∃ fw : Nat, 1 ≤ fw ∧ fw ≤ 20 ∧
      onboardProgressBar 1 30 =
        repChar '█' fw ++ repChar '░' (20 - fw) ++ " " ++ formatPercent1 1 30 ++ "%" ∧
      (repChar '█' fw ++ repChar '░' (20 - fw)).length = 20 :=
  C10_onboard_bar_minfill 1 30 (by decide) (by decide)

/-- C1: the dry-run invariant.  Whenever `DryRun` is set, neither `Update`
ever emits a create (POST) or update (PATCH), for every repository,
milestone, issue set, resolved-or-absent target issue, confirmation setting,
map-iteration order and input stream, and both return success. -/
theorem C1_dry_run_no_writes (popts : Options) (oopts : OnboardOptions)
    (hp : popts.dryRun = true) (ho : oopts.dryRun = true) :
    (∀ owner repo milestone milestoneIssues existingIssues order now inputs,
      planningUpdate owner repo milestone milestoneIssues existingIssues popts order now inputs
        = (true, [])) ∧
    (∀ repoName issues existing order now inputs,
      onboardUpdate repoName issues existing oopts order now inputs = (true, [])) := by
  constructor <;> intros <;> simp [planningUpdate, onboardUpdate, hp, ho]

/-- C1 witness: a concrete dry run of each reconciler performs no write. -/
theorem C1_witness :
    planningUpdate "elliotxx" "osp" testMilestone [dupIssue 1] [dupIssue 5]
      { DefaultOptions with dryRun := true } [] "now" [] = (true, []) ∧
    onboardUpdate "elliotxx/osp" [testOnboardIssue] []
      { onboardDefaultOptions with dryRun := true } [] "now" [] = (true, []) :=
  ⟨(C1_dry_run_no_writes { DefaultOptions with dryRun := true }
      { onboardDefaultOptions with dryRun := true } rfl rfl).1
      "elliotxx" "osp" testMilestone [dupIssue 1] [dupIssue 5] [] "now" [],
   (C1_dry_run_no_writes { DefaultOptions with dryRun := true }
      { onboardDefaultOptions with dryRun := true } rfl rfl).2
      "elliotxx/osp" [testOnboardIssue] [] [] "now" []⟩

/-- C9 counterexample: the planning confirmation prompt does **not** return
false immediately on empty input: it skips the empty line and keeps
prompting, so with input stream `["", "y"]` it returns `true`.  (The shared
prompt utility, by contrast, declines immediately on the empty line.) -/
theorem C9_counterexample :
    planningAskForConfirmation ["", "y"] = true ∧
    AskForConfirmation ["", "y"] = .ok false := by
  exact ⟨rfl, rfl⟩

/-- C9 (amended): the shared prompt utility (`pkg/util/prompt`, used by the
onboarding `Update`) returns false immediately on empty input; the
planning-internal prompt treats the empty line as unrecognized and reprompts;
both prompts answer true exactly on trimmed case-insensitive y/yes and false
on n/no, and reprompt on anything else; and when the user declines, either
`Update` returns success (`nil`) with no create and no update call. -/
theorem C9_confirmation_semantics :
    (∀ rest, AskForConfirmation ("" :: rest) = .ok false) ∧
    (∀ rest, planningAskForConfirmation ("" :: rest) = planningAskForConfirmation rest) ∧
    (∀ s rest, normalizeResponse s = "y" ∨ normalizeResponse s = "yes" →
      planningAskForConfirmation (s :: rest) = true ∧
      AskForConfirmation (s :: rest) = .ok true) ∧
    (∀ s rest, normalizeResponse s = "n" ∨ normalizeResponse s = "no" →
      planningAskForConfirmation (s :: rest) = false ∧
      AskForConfirmation (s :: rest) = .ok false) ∧
    (∀ s rest,
      normalizeResponse s ≠ "" → normalizeResponse s ≠ "y" → normalizeResponse s ≠ "yes" →
      normalizeResponse s ≠ "n" → normalizeResponse s ≠ "no" →
      planningAskForConfirmation (s :: rest) = planningAskForConfirmation rest ∧
      AskForConfirmation (s :: rest) = AskForConfirmation rest) ∧
    (∀ owner repo milestone milestoneIssues existingIssues (popts : Options) order now inputs,
      popts.dryRun = false → popts.autoConfirm = false →
      planningAskForConfirmation inputs = false →
      planningUpdate owner repo milestone milestoneIssues existingIssues popts order now inputs
        = (true, [])) ∧
    (∀ repoName issues existing (oopts : OnboardOptions) order now inputs,
      oopts.dryRun = false → oopts.autoConfirm = false →
      AskForConfirmation inputs = .ok false →
      onboardUpdate repoName issues existing oopts order now inputs = (true, [])) := by
  refine ⟨fun rest => rfl, fun rest => rfl, ?_, ?_, ?_, ?_, ?_⟩
  · intro s rest h
    rcases h with h | h <;>
      simp [planningAskForConfirmation, AskForConfirmation, h]
  · intro s rest h
    have hne : normalizeResponse s ≠ "" := by
      rcases h with h | h <;> simp [h]
    rcases h with h | h <;>
      simp [planningAskForConfirmation, AskForConfirmation, h, hne]
  · intro s rest h0 h1 h2 h3 h4
    constructor <;>
      simp [planningAskForConfirmation, AskForConfirmation, h0, h1, h2, h3, h4]
  · intro owner repo milestone milestoneIssues existingIssues popts order now inputs hd ha hask
    simp [planningUpdate, hd, ha, hask]
  · intro repoName issues existing oopts order now inputs hd ha hask
    simp [onboardUpdate, hd, ha, hask]

/-- C9 witness: concrete confirmations and a concrete declined update. -/
theorem C9_witness :
    (planningAskForConfirmation ["YES"] = true ∧
      AskForConfirmation ["YES"] = .ok true) ∧
    planningUpdate "elliotxx" "osp" testMilestone [] [] DefaultOptions [] "now" ["no"]
      = (true, []) :=
  ⟨C9_confirmation_semantics.2.2.1 "YES" [] (Or.inr (by decide)),
   C9_confirmation_semantics.2.2.2.2.2.1 "elliotxx" "osp" testMilestone [] [] DefaultOptions
     [] "now" ["no"] rfl rfl (by decide)⟩

/-- Once the planning-resolver loop has found a candidate it never loses it. -/
theorem resolveLoop_isSome (t : String) :
    ∀ (l : List Issue) (i : Issue) (m : Int), ((resolveLoop t l (some i, m)).1).isSome := by
  intro l
  induction l with
  | nil => intro i m; rfl
  | cons x rest ih =>
    intro i m
    rw [resolveLoop]
    by_cases hx : (x.title == t) = true
    · simp only [hx, if_true]
      by_cases hlt : (Option.isNone (some i) || decide (x.number < m)) = true
      · simp only [hlt, if_true]; exact ih x x.number
      · simp only [hlt, if_false]; exact ih i m
    · simp only [hx, if_false]; exact ih i m

/-- Invariant of the planning-resolver loop: when the final state holds a
candidate `j`, either it was already the incoming candidate, or `j` is a
title match from the scanned list; `j`'s number is a lower bound for every
title match scanned and never exceeds the incoming candidate's number. -/
theorem resolveLoop_spec (t : String) :
    ∀ (l : List Issue) (acc : Option Issue) (m : Int),
      (∀ a, acc = some a → a.number = m) →
      ∀ j, (resolveLoop t l (acc, m)).1 = some j →
        (acc = some j ∨ (j ∈ l ∧ j.title = t)) ∧
        (∀ k ∈ l, k.title = t → j.number ≤ k.number) ∧
        (∀ a, acc = some a → j.number ≤ a.number) := by
  intro l
  induction l with
  | nil =>
    intro acc m _ j hj
    rw [resolveLoop] at hj
    have hj' : acc = some j := hj
    refine ⟨Or.inl hj', by simp, ?_⟩
    intro a ha
    rw [hj'] at ha
    cases ha
    exact le_refl _
  | cons x rest ih =>
    intro acc m hwf j hj
    rw [resolveLoop] at hj
    by_cases hx : (x.title == t) = true
    · have hxt : x.title = t := eq_of_beq hx
      rw [if_pos hx] at hj
      cases acc with
      | none =>
        simp only [Option.isNone_none, Bool.true_or, if_true] at hj
        obtain ⟨hA, hB, hC⟩ :=
          ih (some x) x.number (by intro a ha; cases ha; rfl) j hj
        have hjx : j.number ≤ x.number := hC x rfl
        refine ⟨?_, ?_, ?_⟩
        · rcases hA with hA | hA
          · cases hA
            exact Or.inr ⟨List.mem_cons_self _ _, hxt⟩
          · exact Or.inr ⟨List.mem_cons_of_mem _ hA.1, hA.2⟩
        · intro k hk hkt
          rcases List.mem_cons.mp hk with hk | hk
          · rw [hk]; exact hjx
          · exact hB k hk hkt
        · intro a ha; cases ha
      | some a0 =>
        have ha0 : a0.number = m := hwf a0 rfl
        simp only [Option.isNone_some, Bool.false_or, decide_eq_true_eq] at hj
        by_cases hlt : x.number < m
        · rw [if_pos hlt] at hj
          obtain ⟨hA, hB, hC⟩ :=
            ih (some x) x.number (by intro a ha; cases ha; rfl) j hj
          have hjx : j.number ≤ x.number := hC x rfl
          refine ⟨?_, ?_, ?_⟩
          · rcases hA with hA | hA
            · cases hA
              exact Or.inr ⟨List.mem_cons_self _ _, hxt⟩
            · exact Or.inr ⟨List.mem_cons_of_mem _ hA.1, hA.2⟩
          · intro k hk hkt
            rcases List.mem_cons.mp hk with hk | hk
            · rw [hk]; exact hjx
            · exact hB k hk hkt
          · intro a ha
            cases ha
            calc j.number ≤ x.number := hjx
              _ ≤ a0.number := by rw [ha0]; exact le_of_lt hlt
        · rw [if_neg hlt] at hj
          obtain ⟨hA, hB, hC⟩ := ih (some a0) m hwf j hj
          have hja : j.number ≤ a0.number := hC a0 rfl
          refine ⟨?_, ?_, ?_⟩
          · rcases hA with hA | hA
            · exact Or.inl hA
            · exact Or.inr ⟨List.mem_cons_of_mem _ hA.1, hA.2⟩
          · intro k hk hkt
            rcases List.mem_cons.mp hk with hk | hk
            · rw [hk]
              calc j.number ≤ a0.number := hja
                _ ≤ x.number := by rw [ha0]; exact le_of_not_lt hlt
            · exact hB k hk hkt
          · intro a ha
            cases ha
            exact hja
    · rw [if_neg hx] at hj
      obtain ⟨hA, hB, hC⟩ := ih acc m hwf j hj
      refine ⟨?_, ?_, hC⟩
      · rcases hA with hA | hA
        · exact Or.inl hA
        · exact Or.inr ⟨List.mem_cons_of_mem _ hA.1, hA.2⟩
      · intro k hk hkt
        rcases List.mem_cons.mp hk with hk | hk
        · exfalso
          apply hx
          rw [hk] at hkt
          exact beq_iff_eq.mpr hkt
        · exact hB k hk hkt

/-- The planning-resolver loop ends without a candidate exactly when it
started without one and no scanned issue's title matches. -/
theorem resolveLoop_none_iff (t : String) :
    ∀ (l : List Issue) (acc : Option Issue) (m : Int),
      (resolveLoop t l (acc, m)).1 = none ↔ (acc = none ∧ ∀ k ∈ l, k.title ≠ t) := by
  intro l
  induction l with
  | nil =>
    intro acc m
    rw [resolveLoop]
    constructor
    · intro h
      exact ⟨h, by simp⟩
    · intro h
      exact h.1
  | cons x rest ih =>
    intro acc m
    rw [resolveLoop]
    by_cases hx : (x.title == t) = true
    · have hxt : x.title = t := eq_of_beq hx
      rw [if_pos hx]
      constructor
      · intro h
        exfalso
        cases acc with
        | none =>
          simp only [Option.isNone_none, Bool.true_or, if_true] at h
          have := resolveLoop_isSome t rest x x.number
          rw [h] at this
          exact Bool.false_ne_true this
        | some a0 =>
          simp only [Option.isNone_some, Bool.false_or, decide_eq_true_eq] at h
          by_cases hlt : x.number < m
          · rw [if_pos hlt] at h
            have := resolveLoop_isSome t rest x x.number
            rw [h] at this
            exact Bool.false_ne_true this
          · rw [if_neg hlt] at h
            have := resolveLoop_isSome t rest a0 m
            rw [h] at this
            exact Bool.false_ne_true this
      · intro h
        exact absurd hxt (h.2 x (List.mem_cons_self _ _))
    · rw [if_neg hx]
      rw [ih acc m]
      have hxt : x.title ≠ t := fun he => hx (beq_iff_eq.mpr he)
      constructor
      · intro h
        refine ⟨h.1, ?_⟩
        intro k hk
        rcases List.mem_cons.mp hk with hk | hk
        · rw [hk]; exact hxt
        · exact h.2 k hk
      · intro h
        exact ⟨h.1, fun k hk => h.2 k (List.mem_cons_of_mem _ hk)⟩

/-- The onboarding min-selection loop returns an element of the candidate
list (or the seed) whose number is a lower bound for the seed and for every
scanned candidate. -/
theorem minLoop_spec :
    ∀ (l : List TitledIssue) (acc : TitledIssue),
      minLoop acc l ∈ acc :: l ∧ (minLoop acc l).number ≤ acc.number ∧
        ∀ z ∈ l, (minLoop acc l).number ≤ z.number := by
  intro l
  induction l with
  | nil =>
    intro acc
    exact ⟨List.mem_cons_self _ _, le_refl _, by simp⟩
  | cons x rest ih =>
    intro acc
    rw [minLoop]
    by_cases hlt : x.number < acc.number
    · rw [if_pos hlt]
      obtain ⟨hmem, hle, hall⟩ := ih x
      refine ⟨?_, ?_, ?_⟩
      · rcases List.mem_cons.mp hmem with h | h
        · rw [h]; exact List.mem_cons_of_mem _ (List.mem_cons_self _ _)
        · exact List.mem_cons_of_mem _ (List.mem_cons_of_mem _ h)
      · exact le_trans hle (le_of_lt hlt)
      · intro z hz
        rcases List.mem_cons.mp hz with h | h
        · rw [h]; exact hle
        · exact hall z h
    · rw [if_neg hlt]
      obtain ⟨hmem, hle, hall⟩ := ih acc
      refine ⟨?_, hle, ?_⟩
      · rcases List.mem_cons.mp hmem with h | h
        · rw [h]; exact List.mem_cons_self _ _
        · exact List.mem_cons_of_mem _ (List.mem_cons_of_mem _ h)
      · intro z hz
        rcases List.mem_cons.mp hz with h | h
        · rw [h]
          exact le_trans hle (le_of_not_lt hlt)
        · exact hall z h

/-- C2 counterexample: the resolver step of the onboarding `Update` never
consults titles.  With candidates `[{title Other, #1}, {title <target>, #2}]`
— where only #2 carries the expected target title — it selects #1, whose
title differs from the expected target title, instead of #2. -/
theorem C2_counterexample :
    findOnboardingIssue
      [{ title := "Other", number := 1 },
       { title := "Onboarding: Getting Started with Contributing", number := 2 }]
      = some { title := "Other", number := 1 } ∧
    "Other" ≠ onboardDefaultOptions.targetTitle := by
  exact ⟨rfl, by decide⟩

/-- C2 (amended): the **planning** resolver selects exactly the
lowest-numbered candidate whose title equals the expected planning title and
reports "create" exactly when no candidate's title matches; the
**onboarding** resolver ignores titles entirely, selecting the
lowest-numbered labelled candidate, and reports "create" only when there are
no labelled candidates at all. -/
theorem C2_target_resolver (existing : List Issue) (t : String)
    (onboardExisting : List TitledIssue) :
    (∀ i, findPlanningIssue existing t = some i →
      i ∈ existing ∧ i.title = t ∧ ∀ j ∈ existing, j.title = t → i.number ≤ j.number) ∧
    (findPlanningIssue existing t = none ↔ ∀ j ∈ existing, j.title ≠ t) ∧
    (∀ y, findOnboardingIssue onboardExisting = some y →
      y ∈ onboardExisting ∧ ∀ z ∈ onboardExisting, y.number ≤ z.number) ∧
    (findOnboardingIssue onboardExisting = none ↔ onboardExisting = []) := by
  refine ⟨?_, ?_, ?_, ?_⟩
  · intro i hi
    obtain ⟨hA, hB, _⟩ :=
      resolveLoop_spec t existing none 2147483647 (by intro a ha; cases ha) i hi
    rcases hA with hA | hA
    · cases hA
    · exact ⟨hA.1, hA.2, hB⟩
  · rw [findPlanningIssue, resolveLoop_none_iff]
    simp
  · intro y hy
    cases onboardExisting with
    | nil => cases hy
    | cons x rest =>
      have hy' : minLoop x rest = y := by
        rw [findOnboardingIssue] at hy
        exact Option.some_injective _ hy
      obtain ⟨hmem, hle, hall⟩ := minLoop_spec rest x
      rw [hy'] at hmem hle hall
      refine ⟨hmem, ?_⟩
      intro z hz
      rcases List.mem_cons.mp hz with h | h
      · rw [h]; exact hle
      · exact hall z h
  · cases onboardExisting with
    | nil => simp [findOnboardingIssue]
    | cons x rest => simp [findOnboardingIssue]

/-- C2 witness: with duplicate planning tracking issues #5, #3, #8 all titled
"Planning: v1.0.0", the planning resolver selects #3, which is a member,
matches the title, and has the least number among the matches. -/
theorem C2_witness :
    dupIssue 3 ∈ [dupIssue 5, dupIssue 3, dupIssue 8] ∧
    (dupIssue 3).title = "Planning: v1.0.0" ∧
    ∀ j ∈ [dupIssue 5, dupIssue 3, dupIssue 8], j.title = "Planning: v1.0.0" →
      (dupIssue 3).number ≤ j.number :=
  (C2_target_resolver [dupIssue 5, dupIssue 3, dupIssue 8] "Planning: v1.0.0" []).1
    (dupIssue 3) (by decide)

/-- A filtered list is non-trivial exactly when a member satisfies the
predicate. -/
theorem filter_length_ne_zero_iff {α : Type} (p : α → Bool) (l : List α) :
    (l.filter p).length ≠ 0 ↔ ∃ a ∈ l, p a = true := by
  rw [Ne, List.length_eq_zero, List.filter_eq_nil_iff]
  push_neg
  simp

/-- Membership in a planning category bucket: the issue is in the input list,
the category is configured, and some label of the issue matches it. -/
theorem mem_planBucket {pis : List Issue} {cats : List String} {c : String} {i : Issue} :
    i ∈ planBucket pis cats c ↔
      i ∈ pis ∧ c ∈ cats ∧ ∃ lab ∈ i.labels, equalFold lab.name c = true := by
  rw [planBucket]
  rw [List.mem_flatMap]
  constructor
  · rintro ⟨j, hj, hrep⟩
    obtain ⟨hne, hij⟩ := List.mem_replicate.mp hrep
    subst hij
    obtain ⟨hcat, hlab⟩ := Nat.mul_ne_zero_iff.mp hne
    refine ⟨hj, ?_, ?_⟩
    · obtain ⟨x, hx, hxc⟩ := (filter_length_ne_zero_iff _ _).mp hcat
      rw [eq_of_beq hxc] at hx
      exact hx
    · exact (filter_length_ne_zero_iff _ _).mp hlab
  · rintro ⟨hi, hc, lab, hlab, hfold⟩
    refine ⟨i, hi, List.mem_replicate.mpr ⟨?_, rfl⟩⟩
    refine Nat.mul_ne_zero_iff.mpr ⟨?_, ?_⟩
    · exact (filter_length_ne_zero_iff _ _).mpr ⟨c, hc, beq_iff_eq.mpr rfl⟩
    · exact (filter_length_ne_zero_iff _ _).mpr ⟨lab, hlab, hfold⟩

/-- C5 counterexample: in the planning grouping, an issue whose labels match
two configured categories is filed under **both** category sections — here
`multiIssue` (labels `bug` and `enhancement`) appears under `bug` and under
`enhancement` with the default category list, so the issue is not placed in
exactly one category. -/
theorem C5_counterexample :
    multiIssue ∈ planBucket [multiIssue] DefaultOptions.categories "bug" ∧
    multiIssue ∈ planBucket [multiIssue] DefaultOptions.categories "enhancement" ∧
    ("bug" : String) ≠ "enhancement" := by
  refine ⟨?_, ?_, by decide⟩ <;> decide

/-- C5 (amended): the onboarding grouping is a partition — every
deduplicated issue lands in exactly the bucket of its (difficulty, category)
key pair, and in no other bucket; the planning grouping places an issue in
the uncategorized section exactly when none of its labels matches a
configured category, and files it under category `c` exactly when `c` is
configured and some label matches `c` — so an issue with labels matching
several categories appears under each of them. -/
theorem C5_classification (issues : List OnboardIssue) (opts : OnboardOptions)
    (pis : List Issue) (cats : List String) (c : String) (i : Issue) (oi : OnboardIssue) :
    (oi ∈ dedupByNumber issues →
      oi ∈ onboardBucket issues opts (onboardDifficultyKey opts oi) (onboardCategoryKey opts oi)) ∧
    (∀ d c', oi ∈ onboardBucket issues opts d c' →
      d = onboardDifficultyKey opts oi ∧ c' = onboardCategoryKey opts oi) ∧
    (i ∈ uncategorizedIssues pis cats ↔ (i ∈ pis ∧ planCategorized i cats = false)) ∧
    (i ∈ planBucket pis cats c ↔
      (i ∈ pis ∧ c ∈ cats ∧ ∃ lab ∈ i.labels, equalFold lab.name c = true)) := by
  refine ⟨?_, ?_, ?_, mem_planBucket⟩
  · intro h
    rw [onboardBucket, List.mem_filter]
    exact ⟨h, by simp⟩
  · intro d c' h
    rw [onboardBucket, List.mem_filter] at h
    have h2 := h.2
    simp only [Bool.and_eq_true, beq_iff_eq] at h2
    exact ⟨h2.1.symm, h2.2.symm⟩
  · rw [uncategorizedIssues, List.mem_filter]
    simp

/-- C5 witness: a concrete deduplicated onboarding issue lands in the bucket
of its own key pair. -/
theorem C5_witness :
    testOnboardIssue ∈ onboardBucket [testOnboardIssue] onboardDefaultOptions
      (onboardDifficultyKey onboardDefaultOptions testOnboardIssue)
      (onboardCategoryKey onboardDefaultOptions testOnboardIssue) :=
  (C5_classification [testOnboardIssue] onboardDefaultOptions [] [] "" multiIssue
    testOnboardIssue).1 (by decide)

/-- The single counting pass of `GenerateContent` counts exactly the three
disjoint filters. -/
theorem onboardStats_fold (l : List OnboardIssue) :
    ∀ s : OnboardStats,
      (l.foldl onboardStatsStep s).totalIssues = s.totalIssues ∧
      (l.foldl onboardStatsStep s).completedIssues =
        s.completedIssues + (l.filter (fun i => i.status == "closed")).length ∧
      (l.foldl onboardStatsStep s).inProgressIssues =
        s.inProgressIssues +
          (l.filter (fun i => !(i.status == "closed") && !(i.assignee == ""))).length ∧
      (l.foldl onboardStatsStep s).unassignedIssues =
        s.unassignedIssues +
          (l.filter (fun i => !(i.status == "closed") && (i.assignee == ""))).length := by
  induction l with
  | nil => intro s; simp
  | cons x rest ih =>
    intro s
    rw [List.foldl_cons]
    obtain ⟨h1, h2, h3, h4⟩ := ih (onboardStatsStep s x)
    by_cases hc : (x.status == "closed") = true
    · rw [h1, h2, h3, h4]
      simp [onboardStatsStep, hc, List.filter_cons]
      omega
    · by_cases ha : (x.assignee == "") = true
      · rw [h1, h2, h3, h4]
        have ha' : ¬ x.assignee ≠ "" := by simp [eq_of_beq ha]
        simp [onboardStatsStep, hc, ha, ha', List.filter_cons]
        omega
      · rw [h1, h2, h3, h4]
        have ha' : x.assignee ≠ "" := by
          intro h
          exact ha (beq_iff_eq.mpr h)
        simp [onboardStatsStep, hc, ha, ha', List.filter_cons]
        omega

/-- Open/closed and assigned/unassigned split every issue list into three
disjoint, exhaustive buckets. -/
theorem three_bucket_partition (l : List OnboardIssue) :
    (l.filter (fun i => i.status == "closed")).length +
    (l.filter (fun i => !(i.status == "closed") && !(i.assignee == ""))).length +
    (l.filter (fun i => !(i.status == "closed") && (i.assignee == ""))).length = l.length := by
  induction l with
  | nil => rfl
  | cons x rest ih =>
    by_cases hc : (x.status == "closed") = true
    · simp [List.filter_cons, hc]
      omega
    · by_cases ha : (x.assignee == "") = true
      · simp [List.filter_cons, hc, ha]
        omega
      · simp [List.filter_cons, hc, ha]
        omega

/-- C7: each deduplicated issue is counted in exactly one bucket — closed
issues as completed, open issues with an assignee as in-progress, open
issues without an assignee as unassigned — the three buckets sum to the
total, and the planning progress ratio is completed/total (as a percentage),
defined as 0 when the total is 0 with no division by zero. -/
theorem C7_aggregation (issues : List OnboardIssue) (order : List String)
    (pIssues : List Issue) :
    (onboardStats issues).totalIssues = (dedupByNumber issues).length ∧
    (onboardStats issues).completedIssues =
      ((dedupByNumber issues).filter (fun i => i.status == "closed")).length ∧
    (onboardStats issues).inProgressIssues =
      ((dedupByNumber issues).filter
        (fun i => !(i.status == "closed") && !(i.assignee == ""))).length ∧
    (onboardStats issues).unassignedIssues =
      ((dedupByNumber issues).filter
        (fun i => !(i.status == "closed") && (i.assignee == ""))).length ∧
    (onboardStats issues).completedIssues + (onboardStats issues).inProgressIssues +
      (onboardStats issues).unassignedIssues = (onboardStats issues).totalIssues ∧
    (planningStats order pIssues).progress =
      (if pIssues.length = 0 then 0 else
        (((pIssues.filter (fun i => i.state == "closed")).length : Rat) /
          (pIssues.length : Rat)) * 100) := by
  obtain ⟨h1, h2, h3, h4⟩ :=
    onboardStats_fold (dedupByNumber issues)
      { totalIssues := (dedupByNumber issues).length, completedIssues := 0
        inProgressIssues := 0, unassignedIssues := 0 }
  have e1 : (onboardStats issues).totalIssues = (dedupByNumber issues).length := by
    simpa [onboardStats] using h1
  have e2 : (onboardStats issues).completedIssues =
      ((dedupByNumber issues).filter (fun i => i.status == "closed")).length := by
    simpa [onboardStats] using h2
  have e3 : (onboardStats issues).inProgressIssues =
      ((dedupByNumber issues).filter
        (fun i => !(i.status == "closed") && !(i.assignee == ""))).length := by
    simpa [onboardStats] using h3
  have e4 : (onboardStats issues).unassignedIssues =
      ((dedupByNumber issues).filter
        (fun i => !(i.status == "closed") && (i.assignee == ""))).length := by
    simpa [onboardStats] using h4
  refine ⟨e1, e2, e3, e4, ?_, ?_⟩
  · have hpart := three_bucket_partition (dedupByNumber issues)
    rw [e1, e2, e3, e4]
    omega
  · by_cases h : pIssues.length = 0
    · simp [planningStats, h]
    · have hpos : 0 < pIssues.length := Nat.pos_of_ne_zero h
      simp [planningStats, h, hpos]

/-- Soundness of `permCheck`. -/
theorem permCheck_perm : ∀ (l1 l2 : List String), permCheck l1 l2 = true → l1.Perm l2 := by
  intro l1
  induction l1 with
  | nil =>
    intro l2 h
    cases l2 with
    | nil => exact List.Perm.refl []
    | cons y ys => cases h
  | cons x xs ih =>
    intro l2 h
    rw [permCheck] at h
    by_cases hc : l2.contains x = true
    · rw [if_pos hc] at h
      have hmem : x ∈ l2 := by simpa using hc
      exact ((ih (l2.erase x) h).cons x).trans (List.perm_cons_erase hmem).symm
    · rw [if_neg hc] at h
      cases h

/-- Whatever order the runtime yields, the iterated keys are a permutation of
the key set. -/
theorem mapIterKeys_perm (order keys : List String) :
    (mapIterKeys order keys).Perm keys := by
  rw [mapIterKeys]
  by_cases hp : permCheck order keys = true
  · rw [if_pos hp]
    exact permCheck_perm order keys hp
  · rw [if_neg hp]

/-- Membership after one conditional map insertion. -/
theorem insertKey_mem (acc : List String) (k u : String) :
    u ∈ insertKey acc k ↔ u ∈ acc ∨ u = k := by
  rw [insertKey]
  by_cases hc : acc.contains k = true
  · rw [if_pos hc]
    have hk : k ∈ acc := by simpa using hc
    constructor
    · exact Or.inl
    · rintro (h | h)
      · exact h
      · rw [h]; exact hk
  · rw [if_neg hc]
    simp

/-- Conditional map insertion preserves distinctness of the key list. -/
theorem insertKey_nodup (acc : List String) (k : String) (h : acc.Nodup) :
    (insertKey acc k).Nodup := by
  rw [insertKey]
  by_cases hc : acc.contains k = true
  · rw [if_pos hc]; exact h
  · rw [if_neg hc]
    have hk : k ∉ acc := by simpa using hc
    simp [List.nodup_append, h, hk]

/-- Membership in a key list collected by a conditional-insert loop. -/
theorem collectKeys_fold_mem {α : Type} (f : α → Option String) :
    ∀ (l : List α) (acc : List String) (u : String),
      u ∈ l.foldl (fun acc i => match f i with | some k => insertKey acc k | none => acc) acc ↔
        u ∈ acc ∨ ∃ i ∈ l, f i = some u := by
  intro l
  induction l with
  | nil => intro acc u; simp
  | cons x rest ih =>
    intro acc u
    rw [List.foldl_cons, ih]
    cases hfx : f x with
    | none =>
      simp only [hfx]
      constructor
      · rintro (h | h)
        · exact Or.inl h
        · exact Or.inr (by
            obtain ⟨i, hi, hfi⟩ := h
            exact ⟨i, List.mem_cons_of_mem _ hi, hfi⟩)
      · rintro (h | ⟨i, hi, hfi⟩)
        · exact Or.inl h
        · rcases List.mem_cons.mp hi with hi | hi
          · rw [hi] at hfi
            rw [hfx] at hfi
            cases hfi
          · exact Or.inr ⟨i, hi, hfi⟩
    | some k =>
      simp only [hfx, insertKey_mem]
      constructor
      · rintro ((h | h) | h)
        · exact Or.inl h
        · exact Or.inr ⟨x, List.mem_cons_self _ _, by rw [hfx, h]⟩
        · obtain ⟨i, hi, hfi⟩ := h
          exact Or.inr ⟨i, List.mem_cons_of_mem _ hi, hfi⟩
      · rintro (h | ⟨i, hi, hfi⟩)
        · exact Or.inl (Or.inl h)
        · rcases List.mem_cons.mp hi with hi | hi
          · rw [hi, hfx] at hfi
            exact Or.inl (Or.inr (Option.some_injective _ hfi).symm)
          · exact Or.inr ⟨i, hi, hfi⟩

/-- A conditional-insert loop keeps the key list distinct. -/
theorem collectKeys_fold_nodup {α : Type} (f : α → Option String) :
    ∀ (l : List α) (acc : List String), acc.Nodup →
      (l.foldl (fun acc i => match f i with | some k => insertKey acc k | none => acc)
        acc).Nodup := by
  intro l
  induction l with
  | nil => intro acc h; exact h
  | cons x rest ih =>
    intro acc h
    rw [List.foldl_cons]
    cases hfx : f x with
    | none => simp only [hfx]; exact ih acc h
    | some k => simp only [hfx]; exact ih _ (insertKey_nodup acc k h)

/-- The planning contributor key of one issue, unfolded. -/
theorem planContributorKey_eq_some (i : Issue) (u : String) :
    planContributorKey i = some u ↔
      i.state = "closed" ∧ ∃ a, i.assignee = some a ∧ a.login = u := by
  rw [planContributorKey]
  by_cases hc : (i.state == "closed") = true
  · rw [if_pos hc]
    cases ha : i.assignee with
    | none => simp [eq_of_beq hc, ha]
    | some a => simp [eq_of_beq hc, ha, eq_comm]
  · rw [if_neg hc]
    have hne : i.state ≠ "closed" := fun h => hc (beq_iff_eq.mpr h)
    simp [hne]

/-- The onboarding contributor key of one issue, unfolded. -/
theorem onboardContributorKey_eq_some (i : OnboardIssue) (u : String) :
    onboardContributorKey i = some u ↔
      i.status = "closed" ∧ i.assignee ≠ "" ∧ i.assignee = u := by
  rw [onboardContributorKey]
  by_cases hc : (i.status == "closed" && !(i.assignee == "")) = true
  · rw [if_pos hc]
    simp only [Bool.and_eq_true, beq_iff_eq, Bool.not_eq_true', beq_eq_false_iff_ne] at hc
    simp [hc.1, hc.2, eq_comm]
  · rw [if_neg hc]
    constructor
    · intro h; cases h
    · rintro ⟨h1, h2, _⟩
      exact absurd (by simp [h1, h2] :
        (i.status == "closed" && !(i.assignee == "")) = true) hc

/-- Totality of the byte-wise string comparison. -/
theorem charListLe_total : ∀ (a b : List Char), charListLe a b = true ∨ charListLe b a = true := by
  intro a
  induction a with
  | nil => intro b; exact Or.inl rfl
  | cons x xs ih =>
    intro b
    cases b with
    | nil => exact Or.inr rfl
    | cons y ys =>
      rw [charListLe, charListLe]
      by_cases hxy : x = y
      · rw [if_pos hxy, if_pos hxy.symm]
        exact ih ys
      · rw [if_neg hxy, if_neg (Ne.symm hxy)]
        rcases lt_or_gt_of_ne hxy with h | h
        · exact Or.inl (by simpa using h)
        · exact Or.inr (by simpa using h)

/-- Transitivity of the byte-wise string comparison. -/
theorem charListLe_trans : ∀ (a b c : List Char),
    charListLe a b = true → charListLe b c = true → charListLe a c = true := by
  intro a
  induction a with
  | nil => intro b c _ _; rfl
  | cons x xs ih =>
    intro b c hab hbc
    cases b with
    | nil => cases hab
    | cons y ys =>
      cases c with
      | nil => cases hbc
      | cons z zs =>
        rw [charListLe] at hab hbc ⊢
        by_cases hxy : x = y
        · rw [if_pos hxy] at hab
          by_cases hyz : y = z
          · rw [if_pos hyz] at hbc
            rw [if_pos (hxy.trans hyz)]
            exact ih ys zs hab hbc
          · rw [if_neg hyz] at hbc
            have hlt : y < z := by simpa using hbc
            have hxz : x < z := hxy ▸ hlt
            rw [if_neg (ne_of_lt hxz)]
            simpa using hxz
        · rw [if_neg hxy] at hab
          have hxyl : x < y := by simpa using hab
          by_cases hyz : y = z
          · have hxz : x < z := hyz ▸ hxyl
            rw [if_neg (ne_of_lt hxz)]
            simpa using hxz
          · rw [if_neg hyz] at hbc
            have hyzl : y < z := by simpa using hbc
            have hxz : x < z := lt_trans hxyl hyzl
            rw [if_neg (ne_of_lt hxz)]
            simpa using hxz

instance : IsTotal String strOrder :=
  ⟨fun a b => charListLe_total a.data b.data⟩

instance : IsTrans String strOrder :=
  ⟨fun a b c => charListLe_trans a.data b.data c.data⟩

/-- C6 counterexample: the planning contributors list is **not** sorted.
With two closed issues assigned to `b` (inserted first) and `a`, an
admissible map-iteration order yields `["b", "a"]`, which is not in
lexicographic order — refuting the claim that the contributors collection is
always returned lexicographically sorted. -/
theorem C6_counterexample :
    planContributors ["b", "a"] [closedIssueB, closedIssueA] = ["b", "a"] ∧
    ¬ List.Sorted strOrder ["b", "a"] := by
  constructor
  · rfl
  · intro h
    have hba := (List.sorted_cons.mp h).1 "a" (by simp)
    exact absurd hba (by decide)

/-- C6 (amended): both contributor collections contain exactly the distinct
assignees of closed issues (assignees of open issues never appear), each
exactly once up to permutation of the distinct key set.  The **onboarding**
list is additionally sorted lexicographically (byte-wise), so its renders are
stable; the **planning** list is returned in whatever order the runtime
iterates the map, so only its membership — not its order — is canonical. -/
theorem C6_contributors (order : List String) (pIssues : List Issue)
    (oIssues : List OnboardIssue) :
    (planContributors order pIssues).Perm (planContributorKeys pIssues) ∧
    (planContributorKeys pIssues).Nodup ∧
    (∀ u, u ∈ planContributorKeys pIssues ↔
      ∃ i ∈ pIssues, i.state = "closed" ∧ ∃ a, i.assignee = some a ∧ a.login = u) ∧
    List.Sorted strOrder (onboardContributors order oIssues) ∧
    (onboardContributors order oIssues).Perm (onboardContributorKeys oIssues) ∧
    (onboardContributorKeys oIssues).Nodup ∧
    (∀ u, u ∈ onboardContributorKeys oIssues ↔
      ∃ i ∈ dedupByNumber oIssues, i.status = "closed" ∧ i.assignee ≠ "" ∧ i.assignee = u) := by
  refine ⟨?_, ?_, ?_, ?_, ?_, ?_, ?_⟩
  · exact mapIterKeys_perm order (planContributorKeys pIssues)
  · exact collectKeys_fold_nodup planContributorKey pIssues [] List.nodup_nil
  · intro u
    rw [planContributorKeys, collectKeys, collectKeys_fold_mem]
    simp only [List.not_mem_nil, false_or]
    constructor
    · rintro ⟨i, hi, hfi⟩
      exact ⟨i, hi, (planContributorKey_eq_some i u).mp hfi⟩
    · rintro ⟨i, hi, hprop⟩
      exact ⟨i, hi, (planContributorKey_eq_some i u).mpr hprop⟩
  · exact List.sorted_insertionSort strOrder _
  · exact (List.perm_insertionSort strOrder _).trans
      (mapIterKeys_perm order (onboardContributorKeys oIssues))
  · exact collectKeys_fold_nodup onboardContributorKey (dedupByNumber oIssues) [] List.nodup_nil
  · intro u
    rw [onboardContributorKeys, collectKeys, collectKeys_fold_mem]
    simp only [List.not_mem_nil, false_or]
    constructor
    · rintro ⟨i, hi, hfi⟩
      exact ⟨i, hi, (onboardContributorKey_eq_some i u).mp hfi⟩
    · rintro ⟨i, hi, hprop⟩
      exact ⟨i, hi, (onboardContributorKey_eq_some i u).mpr hprop⟩

/-- C4: render determinism.  The renderers are pure functions of the template
data (which carries the statistics, classified issues and taxonomy), the
fixed timestamp, and — upstream — the explicit map-iteration order, so two
calls on identical inputs produce byte-identical markdown. -/
theorem C4_render_deterministic (d1 d2 : TemplateData) (now1 now2 : String)
    (hd : d1 = d2) (hn : now1 = now2) :
    generatePlanningContentWithTime d1 now1 = generatePlanningContentWithTime d2 now2 ∧
    (∀ issues repoName opts order,
      onboardGenerateContent issues repoName opts order now1 =
        onboardGenerateContent issues repoName opts order now2) := by
  subst hd
  subst hn
  exact ⟨rfl, fun _ _ _ _ => rfl⟩

/-- C4 witness: two renders of a concrete prepared milestone at a fixed
timestamp coincide. -/
theorem C4_witness :
    generatePlanningContentWithTime testTemplateData "January 30, 2025 15:04 UTC" =
      generatePlanningContentWithTime testTemplateData "January 30, 2025 15:04 UTC" :=
  (C4_render_deterministic testTemplateData testTemplateData
    "January 30, 2025 15:04 UTC" "January 30, 2025 15:04 UTC" rfl rfl).1

end OSP
